import Mathlib

/-!
Formal model of the functorch custom-function dispatch core
(torch/_functorch/autograd_function.py).

The Python module implements `custom_function_call`, a dispatch entry point
that lets a user-defined autograd.Function compose with a stack of functorch
transform interpreters (Grad, Jvp, Vmap, Functionalize).  We embed it as a
state-and-error monad over an explicit machine state:

* object identity (Python `id`) is modelled by giving every tensor and every
  non-tensor operand an explicit numeric object id; wrapping a tensor
  allocates a fresh id in a heap mapping ids to wrapper records, so that
  "same object" is exactly "same `Value`";
* the process-wide dynamic interpreter stack, the autograd-mode booleans and
  the `enable_autograd_function` flag live in the state; the Python context
  managers (`interpreter.lower()`, `torch.enable_grad()`, `_enable_fwd_grad()`,
  `enable_autograd_function()`) become save/run/restore combinators that
  restore on every exit path, error exits included;
* observable interactions with the C++ wrap/unwrap collaborators are recorded
  in an event trace so that ordering properties can be stated;
* Python exceptions become `Except.error` results that keep the state current
  at raise time (exceptions do not roll state back; only the scoped
  combinators restore);
* pytrees (arbitrarily nested containers) are modelled as binary trees with
  empty nodes, which is enough to represent any nesting structure; a tuple of
  operands is modelled as a `List Value`, whose flattening is itself.

Python's unbounded recursion (each rule redispatches to the entry point under
a lowered interpreter stack) is modelled with an explicit fuel parameter;
every stated property supplies enough fuel for the active stack.
-/

namespace FunctorchCFC

/-- The four functorch transform kinds (`torch._C._functorch.TransformType`). -/
inductive TransformType where
  | Grad
  | Jvp
  | Vmap
  | Functionalize
deriving DecidableEq, Repr

/-- One active transform interpreter: its kind, its nesting level, and (used
only by Vmap) its batch size. -/
structure Interp where
  kind : TransformType
  level : Nat
  batchSize : Nat
deriving DecidableEq, Repr

/-- A heap record for one tensor object: a plain (unwrapped) tensor, a grad
wrapper (`TensorWrapper`) at a level around an inner tensor id, or a batched
tensor (`BatchedTensorImpl`) at a level with a batch dimension around an inner
tensor id. -/
inductive TObj where
  | base
  | gradW (level : Nat) (inner : Nat)
  | batchedW (level : Nat) (bdim : Nat) (inner : Nat)
deriving DecidableEq, Repr

/-- An observable interaction with the wrap/unwrap collaborators, or an event
emitted by a user-supplied capability (descriptor code is free to record what
it observed).  `userApply` records the autograd modes and the interpreter
stack depth that the user code ran under. -/
inductive Event where
  | unwrapGrad (level : Nat)
  | wrapGrad (level : Nat)
  | unwrapBatched (level : Nat)
  | wrapBatched (level : Nat)
  | userApply (gradMode : Bool) (fwdGradMode : Bool) (stackDepth : Nat)
  | userVmap
deriving DecidableEq, Repr

/-- A Python value appearing as an operand or output: a tensor object or an
arbitrary non-tensor object, each with its object id.  Two `Value`s are the
same Python object exactly when they are equal (a tensor id and a non-tensor
id are never the same object, which matches Python, where two live objects
never share `id`). -/
inductive Value where
  | tensor (oid : Nat)
  | obj (oid : Nat)
deriving DecidableEq, Repr

/-- The `isinstance(v, torch.Tensor)` test. -/
def Value.isTensor : Value → Bool
  | .tensor _ => true
  | .obj _ => false

/-- The machine state: tensor heap (newest entry first), fresh-id counter,
dynamic interpreter stack (innermost-entered interpreter first), the two
autograd mode booleans, the `enable_autograd_function` flag, and the event
trace. -/
structure S where
  heap : List (Nat × TObj)
  nextId : Nat
  stack : List Interp
  gradMode : Bool
  fwdGradMode : Bool
  anfFlag : Bool
  trace : List Event
deriving DecidableEq, Repr

/-- Heap lookup; newest entry wins. -/
def heapGet (h : List (Nat × TObj)) (o : Nat) : Option TObj :=
  match h with
  | [] => none
  | p :: rest => if p.1 = o then some p.2 else heapGet rest o

/-- The effect monad: state passing with string-labelled Python exceptions.
An exception keeps the state current at raise time. -/
def M (α : Type) : Type := S → Except String α × S

instance : Monad M where
  pure a := fun s => (Except.ok a, s)
  bind m k := fun s =>
    match m s with
    | (Except.ok a, s₁) => k a s₁
    | (Except.error e, s₁) => (Except.error e, s₁)

/-- Raise a Python exception. -/
def raise {α : Type} (msg : String) : M α := fun s => (Except.error msg, s)

/-- Turn an `Option` into a monadic result, raising on `none`. -/
def ofOption {α : Type} (o : Option α) (msg : String) : M α := fun s =>
  match o with
  | some a => (Except.ok a, s)
  | none => (Except.error msg, s)

/-- Monadic map over a list, left to right (the loops in the Python helpers). -/
def listMapM {α β : Type} (g : α → M β) : List α → M (List β)
  | [] => pure []
  | a :: as => do
    let b ← g a
    let bs ← listMapM g as
    pure (b :: bs)

/-- A pytree: arbitrarily nested containers of leaves, modelled as binary
nodes plus empty containers (any Python container nesting embeds into this
shape; the claims only depend on structure preservation and leaf order). -/
inductive PyTree (α : Type) where
  | leaf (a : α)
  | pair (l r : PyTree α)
  | nil
deriving DecidableEq, Repr

/-- Structure descriptor of a pytree (the `TreeSpec` of `tree_flatten`). -/
def PyTree.shapeOf {α : Type} : PyTree α → PyTree Unit
  | .leaf _ => .leaf ()
  | .pair l r => .pair l.shapeOf r.shapeOf
  | .nil => .nil

/-- Ordered leaves of a pytree (the list half of `pytree.tree_flatten`). -/
def PyTree.flatten {α : Type} : PyTree α → List α
  | .leaf a => [a]
  | .pair l r => l.flatten ++ r.flatten
  | .nil => []

/-- Number of leaves of a pytree. -/
def PyTree.numLeaves {α : Type} : PyTree α → Nat
  | .leaf _ => 1
  | .pair l r => l.numLeaves + r.numLeaves
  | .nil => 0

/-- Rebuild a tree of the given shape from a prefix of the list, returning the
rebuilt tree and the unconsumed suffix; `none` when the list is too short. -/
def unflattenAux {α : Type} : PyTree Unit → List α → Option (PyTree α × List α)
  | .leaf _, x :: rest => some (.leaf x, rest)
  | .leaf _, [] => none
  | .pair l r, xs => do
    let (tl, xs₁) ← unflattenAux l xs
    let (tr, xs₂) ← unflattenAux r xs₁
    pure (.pair tl tr, xs₂)
  | .nil, xs => some (.nil, xs)

/-- `pytree.tree_unflatten(leaves, spec)`: rebuild the tree, failing unless
the list length matches the spec exactly. -/
def tree_unflatten {α : Type} (xs : List α) (spec : PyTree Unit) : Option (PyTree α) :=
  match unflattenAux spec xs with
  | some (t, []) => some t
  | _ => none

/-- `pytree.tree_flatten`: ordered leaves plus structure descriptor. -/
def tree_flatten {α : Type} (t : PyTree α) : List α × PyTree Unit :=
  (t.flatten, t.shapeOf)

/-! ### Wrap/unwrap collaborators (torch._C._functorch, functorch._src.vmap)

These are the external C++ collaborators the module imports.  An unwrap that
actually peels a wrapper, and every wrap, is observable and recorded in the
trace; an unwrap that finds nothing to peel returns the same object with no
observable effect. -/

/-- The C collaborator `_unwrap_for_grad(tensor, level)`: peel a grad wrapper
of exactly this level, otherwise return the same object. -/
def unwrap_for_grad (v : Value) (level : Nat) : M Value := fun s =>
  match v with
  | .tensor o =>
    match heapGet s.heap o with
    | some (.gradW l inner) =>
      if l = level then
        (Except.ok (.tensor inner), { s with trace := s.trace ++ [.unwrapGrad level] })
      else (Except.ok v, s)
    | _ => (Except.ok v, s)
  | .obj _ => (Except.ok v, s)

/-- The C collaborator `_wrap_for_grad(tensor, level)`: allocate a fresh grad
wrapper object at this level around the given tensor.  (Only ever applied to
tensors by this module; a non-tensor passes through.) -/
def wrap_for_grad (v : Value) (level : Nat) : M Value := fun s =>
  match v with
  | .tensor o =>
    (Except.ok (.tensor s.nextId),
     { s with heap := (s.nextId, .gradW level o) :: s.heap,
              nextId := s.nextId + 1,
              trace := s.trace ++ [.wrapGrad level] })
  | .obj _ => (Except.ok v, s)

/-- The C collaborator `_unwrap_batched(tensor, level)`: peel a batched
wrapper of exactly this level, returning the inner tensor and its batch
dimension; otherwise return the same object with batch dimension `none`. -/
def unwrap_batched_single (v : Value) (level : Nat) : M (Value × Option Nat) := fun s =>
  match v with
  | .tensor o =>
    match heapGet s.heap o with
    | some (.batchedW l d inner) =>
      if l = level then
        (Except.ok (.tensor inner, some d), { s with trace := s.trace ++ [.unwrapBatched level] })
      else (Except.ok (v, none), s)
    | _ => (Except.ok (v, none), s)
  | .obj _ => (Except.ok (v, none), s)

/-- The collaborator `_add_batch_dim(tensor, bdim, level)`: allocate a fresh
batched wrapper object at this level. -/
def add_batch_dim (v : Value) (bdim : Nat) (level : Nat) : M Value := fun s =>
  match v with
  | .tensor o =>
    (Except.ok (.tensor s.nextId),
     { s with heap := (s.nextId, .batchedW level bdim o) :: s.heap,
              nextId := s.nextId + 1,
              trace := s.trace ++ [.wrapBatched level] })
  | .obj _ => (Except.ok v, s)

/-- A batch-dims descriptor returned by a user `vmap` capability: either one
dimension marker to broadcast across the whole output structure, or one
marker per output leaf. -/
inductive BDims where
  | scalar (d : Option Nat)
  | perLeaf (ds : List (Option Nat))
deriving DecidableEq, Repr

/-- The collaborator `_broadcast_to_and_flatten(bdims, spec)`: broadcast a
batch-dims descriptor across a tree spec, returning one marker per leaf, or
`none` when the descriptor does not fit the spec. -/
def broadcast_to_and_flatten (bd : BDims) (spec : PyTree Unit) : Option (List (Option Nat)) :=
  match bd with
  | .scalar d => some (List.replicate spec.numLeaves d)
  | .perLeaf ds => if ds.length = spec.numLeaves then some ds else none

/-- The collaborator `_create_batched_inputs(flat_in_dims, flat_args, level,
spec)`: wrap each argument whose marker is not `none`, then rebuild the
tree. -/
def create_batched_inputs (flat_bdims : List (Option Nat)) (flat_args : List Value)
    (level : Nat) (spec : PyTree Unit) : M (PyTree Value) := do
  let batched ← listMapM
    (fun (p : Option Nat × Value) =>
      match p.1 with
      | none => pure p.2
      | some d => add_batch_dim p.2 d level)
    (flat_bdims.zip flat_args)
  ofOption (tree_unflatten batched spec) "tree_unflatten: length mismatch"

/-! ### Python dict built by comprehension

Both identity-preservation helpers build `{id(unwrapped): orig for unwrapped,
orig in zip(...)}`.  In a Python dict comprehension a later pair with the same
key overwrites an earlier one, so lookup prefers the later pairs. -/

/-- Lookup in the dict `{id(k): v for k, v in pairs}`: the pair appearing
later in `pairs` wins on duplicate keys.  Keys are object identities, which in
this model is `Value` equality. -/
def dictLookup : List (Value × Value) → Value → Option Value
  | [], _ => none
  | p :: ps, k =>
    match dictLookup ps k with
    | some v => some v
    | none => if k = p.1 then some p.2 else none

/-! ### Scoped context managers

Each `with` block of the Python module: set on entry, run the body, restore
the saved component on exit, whether the body returned or raised. -/

/-- The context manager `interpreter.lower()`: temporarily pop the current
interpreter off the dynamic stack, pushing it back on exit (also on the
exception path). -/
def withLower {α : Type} (body : M α) : M α := fun s =>
  match s.stack with
  | [] => body s
  | top :: rest =>
    let r := body { s with stack := rest }
    (r.1, { r.2 with stack := top :: r.2.stack })

/-- The context manager `torch.enable_grad()`. -/
def withGradEnabled {α : Type} (body : M α) : M α := fun s =>
  let r := body { s with gradMode := true }
  (r.1, { r.2 with gradMode := s.gradMode })

/-- The context manager `_enable_fwd_grad()`. -/
def withFwdGradEnabled {α : Type} (body : M α) : M α := fun s =>
  let r := body { s with fwdGradMode := true }
  (r.1, { r.2 with fwdGradMode := s.fwdGradMode })

/-- The `_SingleLevelFunction.apply` machinery turns off both reverse-mode and
forward-mode gradient recording around the user forward (which is why
`Generated.forward` must re-enable them). -/
def withModesOff {α : Type} (body : M α) : M α := fun s =>
  let r := body { s with gradMode := false, fwdGradMode := false }
  (r.1, { r.2 with gradMode := s.gradMode, fwdGradMode := s.fwdGradMode })

/-- The context manager `enable_autograd_function()`: set the process-wide
single-level-node construction flag, restoring its prior value on exit. -/
def withEnableAutogradFunction {α : Type} (body : M α) : M α := fun s =>
  let r := body { s with anfFlag := true }
  (r.1, { r.2 with anfFlag := s.anfFlag })

/-! ### The function descriptor -/

/-- `VmapInfo` (a NamedTuple in the source). -/
structure VmapInfo where
  batchSize : Nat
deriving DecidableEq, Repr

/-- A user autograd.Function descriptor: its name, its public `apply` entry
(the ordinary autograd path used when no transform is active or after all
levels are peeled), and its optional capabilities.  A context object is
modelled by its id (`Nat`).  `vmap = none` models a class without a `vmap`
staticmethod (`hasattr` fails). -/
structure AFunction where
  name : String
  apply : List Value → M (PyTree Value)
  setup_context : Nat → PyTree Value → List Value → M Unit
  backward : Nat → List Value → M (List Value)
  jvp : Nat → List Value → M (List Value)
  vmap : Option (VmapInfo → List (Option Nat) → List Value → M (PyTree Value × BDims))

/-- Allocate a fresh per-invocation context object. -/
def freshCtx : M Nat := fun s => (Except.ok s.nextId, { s with nextId := s.nextId + 1 })

/-! ### The module under verification: torch/_functorch/autograd_function.py

Operands (`*operands`) are a tuple of values, modelled as `List Value`; its
`tree_flatten` is the list itself.  Outputs are a full pytree. -/

/-- Source `wrap_outputs_maintaining_identity(outputs, unwrapped_inputs,
orig_inputs, level)` (lines 136-158): build the dict from unwrapped input
identity to original input, then map over the flattened outputs, passing
non-tensors through, replacing a tensor that is one of the unwrapped input
objects by the corresponding original input, and wrapping every other tensor
for the level; finally unflatten with the outputs' spec. -/
def wrap_outputs_maintaining_identity (outputs : PyTree Value)
    (unwrapped_inputs orig_inputs : List Value) (level : Nat) : M (PyTree Value) := do
  let flat_unwrapped_inputs := unwrapped_inputs
  let flat_orig_inputs := orig_inputs
  let unwrapped_input_to_orig_input := flat_unwrapped_inputs.zip flat_orig_inputs
  let (flat_outputs, spec) := tree_flatten outputs
  let result ← listMapM
    (fun output =>
      if !output.isTensor then pure output
      else
        match dictLookup unwrapped_input_to_orig_input output with
        | some orig => pure orig
        | none => wrap_for_grad output level)
    flat_outputs
  ofOption (tree_unflatten result spec) "tree_unflatten: length mismatch"

/-- Source `preserve_object_identity(outputs, inputs, unwrapped_outputs,
unwrapped_inputs)` (lines 257-279): build the dict from unwrapped input
identity to (wrapped) input, walk the flattened wrapped outputs zipped with
the flattened unwrapped outputs, passing non-tensor wrapped leaves through,
replacing a leaf whose unwrapped output is one of the unwrapped input objects
by the corresponding wrapped input, and keeping every other wrapped leaf;
finally unflatten with the unwrapped outputs' spec. -/
def preserve_object_identity (outputs : PyTree Value) (inputs : List Value)
    (unwrapped_outputs : PyTree Value) (unwrapped_inputs : List Value) : M (PyTree Value) := do
  let (flat_outputs, _) := tree_flatten outputs
  let flat_unwrapped_inputs := unwrapped_inputs
  let flat_inputs := inputs
  let unwrapped_input_to_input := flat_unwrapped_inputs.zip flat_inputs
  let (flat_unwrapped_outputs, spec) := tree_flatten unwrapped_outputs
  let result := (flat_outputs.zip flat_unwrapped_outputs).map
    (fun (p : Value × Value) =>
      if !p.1.isTensor then p.1
      else
        match dictLookup unwrapped_input_to_input p.2 with
        | some inp => inp
        | none => p.1)
  ofOption (tree_unflatten result spec) "tree_unflatten: length mismatch"

/-- Source `unwrap_batched(args, level)` (lines 236-243): empty argument
tuples pass through with empty dims; otherwise unwrap each tensor at the
level (non-tensors get marker `none`) and return values and markers. -/
def unwrap_batched (args : List Value) (level : Nat) : M (List Value × List (Option Nat)) :=
  match args with
  | [] => pure ([], [])
  | _ => do
    let result ← listMapM
      (fun arg =>
        if arg.isTensor then unwrap_batched_single arg level
        else pure (arg, (none : Option Nat)))
      args
    pure (result.map Prod.fst, result.map Prod.snd)

/-- Source `wrap_batched(args, bdims, level)` (lines 246-254): broadcast the
batch-dims descriptor over the args' spec (asserting it fits), then create
batched values. -/
def wrap_batched (args : PyTree Value) (bdims : BDims) (level : Nat) : M (PyTree Value) := do
  let (flat_args, spec) := tree_flatten args
  match broadcast_to_and_flatten bdims spec with
  | none => raise "assert flat_bdims is not None"
  | some flat_bdims => create_batched_inputs flat_bdims flat_args level spec

/-- The message of the `RuntimeError` raised by `custom_function_call_vmap`
when the descriptor lacks a `vmap` staticmethod (lines 211-214). -/
def vmapErrorMessage (n : String) : String :=
  "You tried to vmap over " ++ n ++ ", but it does not have a vmap rule defined. Please add a vmap staticmethod to it."

/-- `Generated.forward` (lines 93-113): unwrap every tensor operand at the
interpreter's level, redispatch to the entry point (passed in as `recur`)
under `enable_grad`, `_enable_fwd_grad` and `interpreter.lower()`, then
rewrap through the identity-preservation helper at the level. -/
def Generated_forward (recur : AFunction → List Value → M (PyTree Value))
    (interp : Interp) (f : AFunction) (operands : List Value) : M (PyTree Value) := do
  let unwrapped_operands ← listMapM
    (fun x => if x.isTensor then unwrap_for_grad x interp.level else pure x)
    operands
  let output ← withGradEnabled (withFwdGradEnabled (withLower (recur f unwrapped_operands)))
  wrap_outputs_maintaining_identity output unwrapped_operands operands interp.level

/-- `Generated.setup_context` (lines 115-117): verbatim delegation. -/
def Generated_setup_context (f : AFunction) (ctx : Nat) (outputs : PyTree Value)
    (operands : List Value) : M Unit :=
  f.setup_context ctx outputs operands

/-- `Generated.backward` (lines 120-123): verbatim delegation (used only when
the transform is Grad). -/
def Generated_backward (f : AFunction) (ctx : Nat) (grads : List Value) : M (List Value) :=
  f.backward ctx grads

/-- `Generated.jvp` (lines 126-129): verbatim delegation (used only when the
transform is Jvp). -/
def Generated_jvp (f : AFunction) (ctx : Nat) (tangents : List Value) : M (List Value) :=
  f.jvp ctx tangents

/-- `Generated.apply`: the `_SingleLevelFunction` public entry.  The autograd
machinery runs the forward with both gradient modes turned off, creates a
fresh context object, runs `setup_context` on it with the outputs and the
original operands, and returns the outputs.  (`backward`/`jvp` are invoked
later by the autograd engine, outside this call.) -/
def Generated_apply (recur : AFunction → List Value → M (PyTree Value))
    (interp : Interp) (f : AFunction) (operands : List Value) : M (PyTree Value) := do
  let outputs ← withModesOff (Generated_forward recur interp f operands)
  let ctx ← freshCtx
  Generated_setup_context f ctx outputs operands
  pure outputs

/-- Source `custom_function_call_grad(interpreter, autograd_function,
*operands)` (lines 83-133): construct the single-level node and invoke its
apply entry on the original operands under `enable_autograd_function()`.
`recur` is the entry point the generated forward redispatches to. -/
def custom_function_call_grad (recur : AFunction → List Value → M (PyTree Value))
    (interp : Interp) (f : AFunction) (operands : List Value) : M (PyTree Value) :=
  withEnableAutogradFunction (Generated_apply recur interp f operands)

/-- Source `custom_function_call_vmap(interpreter, autograd_function,
*operands)` (lines 207-233): raise when the descriptor has no `vmap`
staticmethod; unwrap the operands at the current level; if nothing is batched
at this level, redispatch under `interpreter.lower()` with the original
operands; otherwise run the user `vmap` under `interpreter.lower()`, rewrap
through `wrap_batched`, and preserve object identity. -/
def custom_function_call_vmap (recur : AFunction → List Value → M (PyTree Value))
    (interp : Interp) (f : AFunction) (operands : List Value) : M (PyTree Value) :=
  match f.vmap with
  | none => raise (vmapErrorMessage f.name)
  | some vmapFn => do
    let current_level := interp.level
    let info : VmapInfo := ⟨interp.batchSize⟩
    let (unwrapped_operands, in_dims) ← unwrap_batched operands current_level
    if in_dims.all (fun d => d = none) then
      withLower (recur f operands)
    else do
      let (unwrapped_output, out_dims) ← withLower (vmapFn info in_dims unwrapped_operands)
      let output ← wrap_batched unwrapped_output out_dims current_level
      preserve_object_identity output operands unwrapped_output unwrapped_operands

/-- Source `custom_function_call_functionalize` (lines 282-284). -/
def custom_function_call_functionalize (recur : AFunction → List Value → M (PyTree Value))
    (interp : Interp) (f : AFunction) (operands : List Value) : M (PyTree Value) :=
  raise "NYI: Functionalize rule for custom_function_call"

/-- Source `CustomFunctionPyOperator.__call__` (lines 30-45) together with the
PyDispatcher rule table built by the `py_impl` registrations: when no
functorch transform is active (empty dynamic stack), invoke the descriptor's
`apply` entry directly; otherwise select the rule for the current (topmost)
interpreter's transform kind.  The fuel bounds the redispatch depth, which in
the real system is bounded by the stack height. -/
def custom_function_call (fuel : Nat) (f : AFunction) (operands : List Value) :
    M (PyTree Value) := fun s =>
  match s.stack with
  | [] => f.apply operands s
  | i :: _ =>
    match fuel with
    | 0 => (Except.error "recursion fuel exhausted", s)
    | Nat.succ fl =>
      match i.kind with
      | .Grad => custom_function_call_grad (custom_function_call fl) i f operands s
      | .Jvp => custom_function_call_grad (custom_function_call fl) i f operands s
      | .Vmap => custom_function_call_vmap (custom_function_call fl) i f operands s
      | .Functionalize =>
        custom_function_call_functionalize (custom_function_call fl) i f operands s

/-! ### Claim-side and fixture definitions -/

/-- Is a value free of a batched wrapper at the given level in the given
heap?  (When true for an operand, `_unwrap_batched` at that level is an
identity with batch-dimension marker `none`.) -/
def notBatchedAt (h : List (Nat × TObj)) (v : Value) (level : Nat) : Bool :=
  match v with
  | .tensor o =>
    match heapGet h o with
    | some (.batchedW l _ _) => !(l = level)
    | _ => true
  | .obj _ => true

/-- The Grad/Jvp forward as the specification describes it, written against
the same collaborators: unwrap every tensor operand at the level, evaluate
the redispatch under enabled gradient modes and the next-outer interpreter,
rewrap through the identity-preservation helper at the level. -/
def unwrapAtLevel (level : Nat) : List Value → M (List Value)
  | [] => pure []
  | v :: vs => do
    let v' ← if v.isTensor then unwrap_for_grad v level else pure v
    let vs' ← unwrapAtLevel level vs
    pure (v' :: vs')

/-- The Grad/Jvp forward pipeline in the specification's phrasing, to be
compared with the generated node's forward. -/
def gradForwardSpec (recur : AFunction → List Value → M (PyTree Value))
    (level : Nat) (f : AFunction) (operands : List Value) : M (PyTree Value) := do
  let unwrapped ← unwrapAtLevel level operands
  let output ← withGradEnabled (withFwdGradEnabled (withLower (recur f unwrapped)))
  wrap_outputs_maintaining_identity output unwrapped operands level

/-- The Vmap identity-preservation step as the claim words it: the dict is
keyed on the identity of the WRAPPED inputs and looked up with the WRAPPED
output leaves (instead of the unwrapped ones used by the source). -/
def preserve_object_identity_wrappedCompare (outputs : PyTree Value) (inputs : List Value)
    (unwrapped_outputs : PyTree Value) (unwrapped_inputs : List Value) : M (PyTree Value) := do
  let (flat_outputs, _) := tree_flatten outputs
  let flat_inputs := inputs
  let input_to_input := flat_inputs.zip flat_inputs
  let (flat_unwrapped_outputs, spec) := tree_flatten unwrapped_outputs
  let result := (flat_outputs.zip flat_unwrapped_outputs).map
    (fun (p : Value × Value) =>
      if !p.1.isTensor then p.1
      else
        match dictLookup input_to_input p.1 with
        | some inp => inp
        | none => p.1)
  ofOption (tree_unflatten result spec) "tree_unflatten: length mismatch"

/-- The Vmap rule with its identity step replaced by the wrapped-compare
variant above, i.e. the rule exactly as claim C5 describes it; to be compared
against the source rule. -/
def custom_function_call_vmap_wrappedCompare (recur : AFunction → List Value → M (PyTree Value))
    (interp : Interp) (f : AFunction) (operands : List Value) : M (PyTree Value) :=
  match f.vmap with
  | none => raise (vmapErrorMessage f.name)
  | some vmapFn => do
    let current_level := interp.level
    let info : VmapInfo := ⟨interp.batchSize⟩
    let (unwrapped_operands, in_dims) ← unwrap_batched operands current_level
    if in_dims.all (fun d => d = none) then
      withLower (recur f operands)
    else do
      let (unwrapped_output, out_dims) ← withLower (vmapFn info in_dims unwrapped_operands)
      let output ← wrap_batched unwrapped_output out_dims current_level
      preserve_object_identity_wrappedCompare output operands unwrapped_output unwrapped_operands

deriving instance DecidableEq for Except

/-- A probe redispatch target: returns an empty output and records the
autograd modes and interpreter stack depth it was evaluated under. -/
def probeRecur : AFunction → List Value → M (PyTree Value) := fun _ _ => fun s =>
  (Except.ok PyTree.nil,
   { s with trace := s.trace ++ [Event.userApply s.gradMode s.fwdGradMode s.stack.length] })

/-- A sample `apply` entry: returns its first operand as a leaf and records
the modes and stack depth it ran under. -/
def sampleApply : List Value → M (PyTree Value) := fun ops => fun s =>
  (Except.ok (match ops with | v :: _ => PyTree.leaf v | [] => PyTree.nil),
   { s with trace := s.trace ++ [Event.userApply s.gradMode s.fwdGradMode s.stack.length] })

/-- A sample user `vmap` staticmethod: allocates one fresh plain tensor as
its output, with a uniform batch dimension of 0, and records its call. -/
def sampleVmap : VmapInfo → List (Option Nat) → List Value → M (PyTree Value × BDims) :=
  fun _ _ _ => fun s =>
    (Except.ok (PyTree.leaf (Value.tensor s.nextId), BDims.scalar (some 0)),
     { s with heap := (s.nextId, TObj.base) :: s.heap, nextId := s.nextId + 1,
              trace := s.trace ++ [Event.userVmap] })

/-- A sample aliasing user `vmap` staticmethod: returns its first operand
unchanged (the aliasing idiom of `ctx.mark_dirty`), batched at dimension 0. -/
def aliasVmap : VmapInfo → List (Option Nat) → List Value → M (PyTree Value × BDims) :=
  fun _ _ args =>
    pure (match args with | v :: _ => PyTree.leaf v | [] => PyTree.nil, BDims.scalar (some 0))

/-- A sample descriptor with every capability present. -/
def sampleF : AFunction :=
  { name := "MyFn"
    apply := sampleApply
    setup_context := fun _ _ _ => pure ()
    backward := fun _ g => pure g
    jvp := fun _ t => pure t
    vmap := some sampleVmap }

/-- The sample descriptor without a `vmap` staticmethod. -/
def sampleFNoVmap : AFunction := { sampleF with vmap := none }

/-- The sample descriptor with the aliasing `vmap` staticmethod. -/
def sampleFAliasVmap : AFunction := { sampleF with vmap := some aliasVmap }

/-- A descriptor whose `apply` raises (a failing user forward). -/
def raisingF : AFunction := { sampleF with apply := fun _ => raise "user forward failure" }

/-- A heap with tensor 2 = grad wrapper at level 7 around tensor 1, tensor 1
= batched wrapper at level 3 (dim 0) around the plain tensor 0. -/
def sampleHeap : List (Nat × TObj) :=
  [(2, TObj.gradW 7 1), (1, TObj.batchedW 3 0 0), (0, TObj.base)]

/-- A state with no transform active. -/
def sEmpty : S :=
  { heap := sampleHeap, nextId := 10, stack := [], gradMode := false,
    fwdGradMode := false, anfFlag := false, trace := [] }

/-- A state with a single Vmap interpreter at level 3 active. -/
def sVmap : S := { sEmpty with stack := [⟨TransformType.Vmap, 3, 5⟩] }

/-- A state with a single Grad interpreter at level 7 active. -/
def sGrad : S := { sEmpty with stack := [⟨TransformType.Grad, 7, 0⟩] }

/-- A state with a single Functionalize interpreter active. -/
def sFunc : S := { sEmpty with stack := [⟨TransformType.Functionalize, 4, 0⟩] }

/-- A state with an outer Grad interpreter at level `L2` over an inner Vmap
interpreter at level `L1` (the current, topmost interpreter is the Grad one),
and one operand tensor wrapped for both: tensor 2 = grad wrapper at `L2`
around tensor 1 = batched wrapper at `L1` (dim `d0`) around plain tensor 0. -/
def sNested (L1 L2 B d0 : Nat) : S :=
  { heap := [(2, TObj.gradW L2 1), (1, TObj.batchedW L1 d0 0), (0, TObj.base)]
    nextId := 3
    stack := [⟨TransformType.Grad, L2, 0⟩, ⟨TransformType.Vmap, L1, B⟩]
    gradMode := false, fwdGradMode := false, anfFlag := false, trace := [] }

/-- A computation that leaves the dynamic interpreter stack as it found it,
on every exit path (both `Except.ok` and `Except.error` outcomes). -/
def StackNeutral {α : Type} (m : M α) : Prop := ∀ s, (m s).2.stack = s.stack

/-- A descriptor whose user-supplied capabilities reachable from the entry
point do not themselves tamper with the interpreter stack (they may raise,
allocate, record events, and touch every other state component). -/
structure DescriptorStackNeutral (f : AFunction) : Prop where
  applyN : ∀ ops, StackNeutral (f.apply ops)
  setupN : ∀ c outs ops, StackNeutral (f.setup_context c outs ops)
  vmapN : ∀ vf, f.vmap = some vf → ∀ info dims ops, StackNeutral (vf info dims ops)

/-! ## Theorems -/

theorem bind_run {α β : Type} (m : M α) (k : α → M β) (s : S) :
    (m >>= k) s = match m s with
      | (Except.ok a, s₁) => k a s₁
      | (Except.error e, s₁) => (Except.error e, s₁) := rfl

theorem pure_run {α : Type} (a : α) (s : S) : (pure a : M α) s = (Except.ok a, s) := rfl

theorem numLeaves_shapeOf {α : Type} (t : PyTree α) :
    t.shapeOf.numLeaves = t.numLeaves := by
  induction t with
  | leaf a => rfl
  | pair l r ihl ihr => simp [PyTree.shapeOf, PyTree.numLeaves, ihl, ihr]
  | nil => rfl

theorem length_flatten {α : Type} (t : PyTree α) :
    t.flatten.length = t.numLeaves := by
  induction t with
  | leaf a => rfl
  | pair l r ihl ihr => simp [PyTree.flatten, PyTree.numLeaves, ihl, ihr]
  | nil => rfl

theorem unflattenAux_spec {α : Type} (spec : PyTree Unit) :
    ∀ xs : List α, spec.numLeaves ≤ xs.length →
      ∃ t rest, unflattenAux spec xs = some (t, rest) ∧
        t.shapeOf = spec ∧
        t.flatten = xs.take spec.numLeaves ∧
        rest = xs.drop spec.numLeaves := by
  induction spec with
  | leaf u =>
    intro xs hlen
    cases xs with
    | nil => simp [PyTree.numLeaves] at hlen
    | cons x rest =>
      refine ⟨.leaf x, rest, rfl, ?_, ?_, ?_⟩ <;>
        simp [PyTree.shapeOf, PyTree.flatten, PyTree.numLeaves]
  | pair l r ihl ihr =>
    intro xs hlen
    have hl : l.numLeaves ≤ xs.length := by
      simp [PyTree.numLeaves] at hlen; omega
    obtain ⟨tl, rest₁, he₁, hs₁, hf₁, hr₁⟩ := ihl xs hl
    have hr : r.numLeaves ≤ rest₁.length := by
      subst hr₁
      simp [PyTree.numLeaves] at hlen ⊢
      omega
    obtain ⟨tr, rest₂, he₂, hs₂, hf₂, hr₂⟩ := ihr rest₁ hr
    refine ⟨.pair tl tr, rest₂, ?_, ?_, ?_, ?_⟩
    · simp [unflattenAux, he₁, he₂]
    · simp [PyTree.shapeOf, hs₁, hs₂]
    · subst hr₁
      simp only [PyTree.flatten, hf₁, hf₂, PyTree.numLeaves]
      rw [List.take_add]
    · subst hr₂ hr₁
      simp [PyTree.numLeaves, List.drop_drop, Nat.add_comm]
  | nil =>
    intro xs _
    exact ⟨.nil, xs, rfl, rfl, rfl, rfl⟩

/-- Rebuilding from a leaf list of exactly matching length succeeds and
produces a tree with the given shape and the given leaves. -/
theorem tree_unflatten_spec {α : Type} (spec : PyTree Unit) (xs : List α)
    (hlen : xs.length = spec.numLeaves) :
    ∃ t, tree_unflatten xs spec = some t ∧ t.shapeOf = spec ∧ t.flatten = xs := by
  obtain ⟨t, rest, he, hs, hf, hr⟩ := unflattenAux_spec spec xs (le_of_eq hlen.symm)
  refine ⟨t, ?_, hs, ?_⟩
  · have : rest = [] := by
      subst hr
      simp [List.drop_eq_nil_iff_le, hlen]
    rw [tree_unflatten, he, this]
  · rw [hf, ← hlen, List.take_length]

/-! ### C2: no-transform passthrough -/

/-- C2: For every function descriptor and operand tuple, when no functorch
transform is active anywhere in the process (empty dynamic interpreter
stack), `custom_function_call` returns exactly what the descriptor's `apply`
entry returns on the same operands and state — no rule dispatch, no
unwrapping, no wrapping. -/
theorem C2_no_transform_passthrough (fuel : Nat) (f : AFunction) (ops : List Value)
    (s : S) (hs : s.stack = []) :
    custom_function_call fuel f ops s = f.apply ops s := by
  rw [custom_function_call, hs]

/-- Witness for C2 at a concrete descriptor, operand and state. -/
theorem C2_no_transform_passthrough_witness :
    custom_function_call 0 sampleF [Value.tensor 2] sEmpty
      = sampleF.apply [Value.tensor 2] sEmpty :=
  C2_no_transform_passthrough 0 sampleF [Value.tensor 2] sEmpty rfl

/-! ### C9: Functionalize rule -/

/-- C9: Every call dispatched under an active Functionalize interpreter
raises the not-implemented `RuntimeError`, for all descriptors and operands,
and returns the state exactly as it was — nothing was unwrapped, no stack
manipulation happened, and the error is not a silent no-op. -/
theorem C9_functionalize_raises (fuel : Nat) (f : AFunction) (ops : List Value)
    (s : S) (i : Interp) (rest : List Interp) (hs : s.stack = i :: rest)
    (hk : i.kind = TransformType.Functionalize) :
    custom_function_call (fuel + 1) f ops s
      = (Except.error "NYI: Functionalize rule for custom_function_call", s) := by
  rcases i with ⟨k, lv, bs⟩
  simp only at hk
  subst hk
  rw [custom_function_call, hs]
  rfl

/-- Witness for C9 at a concrete descriptor, operand and state. -/
theorem C9_functionalize_raises_witness :
    custom_function_call 1 sampleF [Value.tensor 2] sFunc
      = (Except.error "NYI: Functionalize rule for custom_function_call", sFunc) :=
  C9_functionalize_raises 0 sampleF [Value.tensor 2] sFunc
    ⟨TransformType.Functionalize, 4, 0⟩ [] rfl rfl

/-! ### C6: missing vmap capability -/

/-- C6: For every descriptor lacking a `vmap` staticmethod, a call dispatched
under an active Vmap interpreter raises the `RuntimeError` whose message
names the function and instructs the author to add a vmap staticmethod, and
it raises before any unwrap logic runs: the returned state is exactly the
input state (so this holds even when operands are batched at the current
level, and in particular on the would-be fast path). -/
theorem C6_missing_vmap_raises (fuel : Nat) (f : AFunction) (ops : List Value)
    (s : S) (i : Interp) (rest : List Interp) (hs : s.stack = i :: rest)
    (hk : i.kind = TransformType.Vmap) (hv : f.vmap = none) :
    custom_function_call (fuel + 1) f ops s
        = (Except.error (vmapErrorMessage f.name), s)
      ∧ vmapErrorMessage f.name
        = "You tried to vmap over " ++ f.name
          ++ ", but it does not have a vmap rule defined. Please add a vmap staticmethod to it." := by
  constructor
  · rcases i with ⟨k, lv, bs⟩
    simp only at hk
    subst hk
    rw [custom_function_call, hs]
    show custom_function_call_vmap (custom_function_call fuel) ⟨TransformType.Vmap, lv, bs⟩ f ops s = _
    simp only [custom_function_call_vmap, hv]
    rfl
  · rfl

/-- Witness for C6: a concrete descriptor without `vmap`, with an operand
that IS batched at the current level — the unchanged state shows the error
fired before any unwrap. -/
theorem C6_missing_vmap_raises_witness :
    custom_function_call 1 sampleFNoVmap [Value.tensor 1] sVmap
        = (Except.error (vmapErrorMessage sampleFNoVmap.name), sVmap)
      ∧ vmapErrorMessage sampleFNoVmap.name
        = "You tried to vmap over " ++ sampleFNoVmap.name
          ++ ", but it does not have a vmap rule defined. Please add a vmap staticmethod to it." :=
  C6_missing_vmap_raises 0 sampleFNoVmap [Value.tensor 1] sVmap
    ⟨TransformType.Vmap, 3, 5⟩ [] rfl rfl rfl

/-! ### C3: Vmap fast path -/

/-- On an operand with no batched wrapper at the level, `_unwrap_batched` is
an observable no-op producing marker `none`. -/
theorem unwrap_batched_single_not_batched (v : Value) (level : Nat) (s : S)
    (h : notBatchedAt s.heap v level = true) :
    unwrap_batched_single v level s = (Except.ok (v, none), s) := by
  cases v with
  | tensor o =>
    simp only [unwrap_batched_single]
    simp only [notBatchedAt] at h
    cases hg : heapGet s.heap o with
    | none => rfl
    | some obj =>
      cases obj with
      | base => rfl
      | gradW l inner => rfl
      | batchedW l d inner =>
        rw [hg] at h
        simp only [Bool.not_eq_true'] at h
        simp [h]
        intro hc
        simp [hc] at h
  | obj o => rfl

/-- `unwrap_batched` on operands none of which is batched at the level:
identity on the operands, all markers `none`, state untouched. -/
theorem unwrap_batched_not_batched (ops : List Value) (level : Nat) (s : S)
    (h : ∀ v ∈ ops, notBatchedAt s.heap v level = true) :
    unwrap_batched ops level s = (Except.ok (ops, ops.map (fun _ => none)), s) := by
  cases ops with
  | nil => rfl
  | cons a as =>
    have key : ∀ (l : List Value), (∀ v ∈ l, notBatchedAt s.heap v level = true) →
        listMapM (fun arg => if arg.isTensor then unwrap_batched_single arg level
                             else pure (arg, (none : Option Nat))) l s
          = (Except.ok (l.map (fun v => (v, (none : Option Nat)))), s) := by
      intro l
      induction l with
      | nil => intro _; rfl
      | cons b bs ih =>
        intro hl
        have hb := hl b (List.mem_cons_self b bs)
        have hbs := fun v hv => hl v (List.mem_cons_of_mem b hv)
        simp only [listMapM, bind_run]
        by_cases ht : b.isTensor
        · rw [if_pos ht, unwrap_batched_single_not_batched b level s hb]
          dsimp only
          rw [ih hbs]
          rfl
        · rw [if_neg ht]
          simp only [pure_run]
          rw [ih hbs]
          rfl
    simp only [unwrap_batched, bind_run]
    rw [key (a :: as) h]
    dsimp only
    simp only [pure_run, List.map_map, List.map]
    have hfst : (Prod.fst ∘ fun v : Value => (v, (none : Option Nat))) = fun v => v := rfl
    have hsnd : (Prod.snd ∘ fun v : Value => (v, (none : Option Nat))) = fun _ => none := rfl
    rw [hfst, hsnd, List.map_id']

/-- C3: In the Vmap dispatch rule, when the descriptor has a `vmap`
staticmethod and no operand carries a batched wrapper at the current level
(so every batch-dimension marker produced by unwrapping is `none`, which
includes the purely non-tensor case), the rule's entire behaviour is the
redispatch: under `interpreter.lower()` it re-enters the entry point with the
original still-wrapped operands and returns that result unchanged.  In
particular the user's `vmap` staticmethod is never invoked — the result and
final state are those of the bare redispatch for every choice of that
staticmethod. -/
theorem C3_vmap_fast_path (recur : AFunction → List Value → M (PyTree Value))
    (i : Interp) (f : AFunction) (ops : List Value) (s : S)
    (hv : f.vmap.isSome = true)
    (hnb : ∀ v ∈ ops, notBatchedAt s.heap v i.level = true) :
    custom_function_call_vmap recur i f ops s = withLower (recur f ops) s := by
  obtain ⟨vf, hvf⟩ := Option.isSome_iff_exists.mp hv
  simp only [custom_function_call_vmap, hvf]
  simp only [bind_run]
  rw [unwrap_batched_not_batched ops i.level s hnb]
  dsimp only
  rw [if_pos]
  simp

/-- Witness for C3: a concrete state whose operand tensor is grad-wrapped
(hence not batched at the Vmap level) plus a non-tensor operand. -/
theorem C3_vmap_fast_path_witness :
    custom_function_call_vmap (custom_function_call 0) ⟨TransformType.Vmap, 3, 5⟩
        sampleF [Value.tensor 2, Value.obj 4] { sVmap with heap := [(2, TObj.gradW 7 1)] }
      = withLower (custom_function_call 0 sampleF [Value.tensor 2, Value.obj 4])
          { sVmap with heap := [(2, TObj.gradW 7 1)] } :=
  C3_vmap_fast_path (custom_function_call 0) ⟨TransformType.Vmap, 3, 5⟩ sampleF
    [Value.tensor 2, Value.obj 4] { sVmap with heap := [(2, TObj.gradW 7 1)] }
    (by rfl) (by decide)

/-! ### Dict semantics -/

/-- A key that is not among the unwrapped inputs is absent from the dict. -/
theorem dictLookup_eq_none (us os : List Value) (k : Value) (h : k ∉ us) :
    dictLookup (us.zip os) k = none := by
  induction us generalizing os with
  | nil => rfl
  | cons u us' ih =>
    cases os with
    | nil => rfl
    | cons o os' =>
      rw [List.zip_cons_cons, dictLookup,
        ih os' (fun hm => h (List.mem_cons_of_mem u hm))]
      have hne : ¬(k = u) := fun hc => h (hc ▸ List.mem_cons_self u us')
      simp [hne]

/-- Lookup in the dict built from zipped pairs returns the value paired with
the LAST occurrence of the key (Python dict comprehensions let later pairs
overwrite earlier ones). -/
theorem dictLookup_last (us : List Value) (k : Value) (j : Nat) :
    ∀ (os : List Value), us.length = os.length → us.get? j = some k →
      (∀ j', j < j' → us.get? j' ≠ some k) →
      dictLookup (us.zip os) k = os.get? j := by
  induction us generalizing j with
  | nil => intro os _ hj; simp at hj
  | cons u us' ih =>
    intro os hlen hj hlast
    cases os with
    | nil => simp at hlen
    | cons o os' =>
      rw [List.zip_cons_cons, dictLookup]
      cases j with
      | zero =>
        have hk : u = k := by simpa using hj
        have hnm : k ∉ us' := by
          intro hmem
          obtain ⟨n, hn⟩ := List.get?_of_mem hmem
          exact hlast (n + 1) (Nat.succ_pos n) (by simpa using hn)
        rw [dictLookup_eq_none us' os' k hnm]
        simp [hk]
      | succ j'' =>
        have hlen' : us'.length = os'.length := by simpa using hlen
        have hj' : us'.get? j'' = some k := hj
        have hlast' : ∀ j', j'' < j' → us'.get? j' ≠ some k := by
          intro j' hlt hc
          exact hlast (j' + 1) (by omega) (by simpa using hc)
        rw [ih j'' os' hlen' hj' hlast']
        have hb : j'' < os'.length := by
          rw [← hlen']
          exact List.get?_eq_some.mp hj' |>.1
        obtain ⟨o', ho'⟩ : ∃ o', os'.get? j'' = some o' :=
          ⟨os'.get ⟨j'', hb⟩, List.get?_eq_get hb⟩
        rw [ho', List.get?_cons_succ, ho']

/-- With no duplicate unwrapped inputs, lookup returns the value paired with
the key's (unique) position. -/
theorem dictLookup_nodup (us os : List Value) (k : Value) (j : Nat)
    (hlen : us.length = os.length) (hnd : us.Nodup) (hj : us.get? j = some k) :
    dictLookup (us.zip os) k = os.get? j := by
  refine dictLookup_last us k j os hlen hj ?_
  intro j' hlt hc
  have hjlen : j < us.length := List.get?_eq_some.mp hj |>.1
  have : j = j' := List.get?_inj hjlen hnd (hj.trans hc.symm)
  omega

/-! ### C10: later pairs overwrite earlier ones -/

/-- C10: In both identity-preservation helpers the unwrapped-to-original map
is a dict keyed on object identity, so when the same unwrapped object `u` is
paired with several positions of the flattened original inputs, the LAST
pairing (position `j` here) wins: an output tensor aliasing `u` (for the
grad helper), or a wrapped output leaf whose unwrapped output aliases `u`
(for the vmap helper), comes back as the original input at position `j`. -/
theorem C10_dict_last_pair_wins (uIns oIns : List Value) (u w : Value) (j : Nat)
    (level : Nat) (s : S)
    (hlen : uIns.length = oIns.length)
    (hj : uIns.get? j = some u)
    (hlast : ∀ j', j < j' → uIns.get? j' ≠ some u)
    (hu : u.isTensor = true) (hw : w.isTensor = true) :
    ∃ o, oIns.get? j = some o ∧
      wrap_outputs_maintaining_identity (PyTree.leaf u) uIns oIns level s
        = (Except.ok (PyTree.leaf o), s) ∧
      preserve_object_identity (PyTree.leaf w) oIns (PyTree.leaf u) uIns s
        = (Except.ok (PyTree.leaf o), s) := by
  have hdict : dictLookup (uIns.zip oIns) u = oIns.get? j :=
    dictLookup_last uIns u j oIns hlen hj hlast
  have hb : j < oIns.length := by
    rw [← hlen]
    exact List.get?_eq_some.mp hj |>.1
  obtain ⟨o, ho⟩ : ∃ o, oIns.get? j = some o := ⟨oIns.get ⟨j, hb⟩, List.get?_eq_get hb⟩
  refine ⟨o, ho, ?_, ?_⟩
  · simp only [wrap_outputs_maintaining_identity, tree_flatten, PyTree.flatten,
      PyTree.shapeOf, listMapM, bind_run, hu, Bool.not_true, if_neg]
    rw [hdict, ho]
    rfl
  · simp only [preserve_object_identity, tree_flatten, PyTree.flatten, PyTree.shapeOf,
      List.zip_cons_cons, List.zip_nil_right, List.map]
    rw [hw]
    simp only [Bool.not_true, Bool.false_eq_true, if_false]
    rw [hdict, ho]
    rfl

/-- Witness for C10: the unwrapped object `tensor 0` is paired with both
`tensor 1` and `tensor 2`; the later pairing wins. -/
theorem C10_dict_last_pair_wins_witness :
    ∃ o, [Value.tensor 1, Value.tensor 2].get? 1 = some o ∧
      wrap_outputs_maintaining_identity (PyTree.leaf (Value.tensor 0))
          [Value.tensor 0, Value.tensor 0] [Value.tensor 1, Value.tensor 2] 7 sEmpty
        = (Except.ok (PyTree.leaf o), sEmpty) ∧
      preserve_object_identity (PyTree.leaf (Value.tensor 9))
          [Value.tensor 1, Value.tensor 2] (PyTree.leaf (Value.tensor 0))
          [Value.tensor 0, Value.tensor 0] sEmpty
        = (Except.ok (PyTree.leaf o), sEmpty) :=
  C10_dict_last_pair_wins [Value.tensor 0, Value.tensor 0] [Value.tensor 1, Value.tensor 2]
    (Value.tensor 0) (Value.tensor 9) 1 7 sEmpty rfl rfl
    (by
      intro j' hlt hc
      rcases j' with _ | _ | n
      · omega
      · omega
      · simp [List.get?] at hc)
    rfl rfl

/-! ### C1: the grad identity-preservation helper -/

/-- Running the per-leaf step of `wrap_outputs_maintaining_identity` on a
non-tensor leaf. -/
theorem wrap_step_nontensor (m : List (Value × Value)) (level : Nat) (out : Value) (s : S)
    (ht : out.isTensor = false) :
    (if !out.isTensor then pure out
     else match dictLookup m out with
       | some orig => pure orig
       | none => wrap_for_grad out level) s = (Except.ok out, s) := by
  rw [if_pos (by simp [ht])]
  rfl

/-- Running the per-leaf step on a tensor leaf that is one of the unwrapped
inputs. -/
theorem wrap_step_hit (m : List (Value × Value)) (level : Nat) (out orig : Value) (s : S)
    (ht : out.isTensor = true) (hd : dictLookup m out = some orig) :
    (if !out.isTensor then pure out
     else match dictLookup m out with
       | some orig => pure orig
       | none => wrap_for_grad out level) s = (Except.ok orig, s) := by
  rw [if_neg (by simp [ht]), hd]
  rfl

/-- Running the per-leaf step on a tensor leaf that is not an unwrapped
input: a fresh grad wrapper is allocated. -/
theorem wrap_step_fresh (m : List (Value × Value)) (level : Nat) (oid : Nat) (s : S)
    (hd : dictLookup m (Value.tensor oid) = none) :
    (if !(Value.tensor oid).isTensor then pure (Value.tensor oid)
     else match dictLookup m (Value.tensor oid) with
       | some orig => pure orig
       | none => wrap_for_grad (Value.tensor oid) level) s
      = (Except.ok (Value.tensor s.nextId),
         { s with heap := (s.nextId, TObj.gradW level oid) :: s.heap,
                  nextId := s.nextId + 1,
                  trace := s.trace ++ [Event.wrapGrad level] }) := by
  rw [if_neg (by simp [Value.isTensor]), hd]
  rfl

/-- Full characterization of the rewrap loop of
`wrap_outputs_maintaining_identity` over a flattened output list: it always
succeeds, returns one value per output leaf, only grows the heap (entries
below the initial fresh counter are untouched), leaves the stack alone, and
leafwise: non-tensors pass through, dict hits return the stored original,
and dict misses return a freshly allocated grad wrapper at the level around
the output tensor. -/
theorem wrapLoop_spec (m : List (Value × Value)) (level : Nat) :
    ∀ (outs : List Value) (s : S), ∃ res s',
      listMapM (fun output =>
        if !output.isTensor then pure output
        else match dictLookup m output with
          | some orig => pure orig
          | none => wrap_for_grad output level) outs s = (Except.ok res, s') ∧
      res.length = outs.length ∧
      s.nextId ≤ s'.nextId ∧
      (∀ k, k < s.nextId → heapGet s'.heap k = heapGet s.heap k) ∧
      s'.stack = s.stack ∧
      (∀ i out, outs.get? i = some out →
        ∃ r, res.get? i = some r ∧
          (out.isTensor = false → r = out) ∧
          (out.isTensor = true → ∀ orig, dictLookup m out = some orig → r = orig) ∧
          (out.isTensor = true → dictLookup m out = none →
            ∃ oid n, out = Value.tensor oid ∧ r = Value.tensor n ∧ s.nextId ≤ n ∧
              heapGet s'.heap n = some (TObj.gradW level oid))) := by
  intro outs
  induction outs with
  | nil =>
    intro s
    refine ⟨[], s, rfl, rfl, le_refl _, fun _ _ => rfl, rfl, ?_⟩
    intro i out h
    simp [List.get?] at h
  | cons out outs' ih =>
    intro s
    rcases hts : out.isTensor with hfalse | htrue
    · -- non-tensor leaf
      obtain ⟨res', s', hrun, hlenr, hnext, hheap, hstack, hchar⟩ := ih s
      refine ⟨out :: res', s', ?_, by simp [hlenr], hnext, hheap, hstack, ?_⟩
      · simp only [listMapM, bind_run]
        rw [wrap_step_nontensor m level out s hts]
        dsimp only
        rw [hrun]
        rfl
      · intro i o hi
        cases i with
        | zero =>
          simp only [List.get?_cons_zero, Option.some.injEq] at hi
          subst hi
          refine ⟨out, rfl, fun _ => rfl, ?_, ?_⟩
          · intro hc; rw [hc] at hts; cases hts
          · intro hc; rw [hc] at hts; cases hts
        | succ i' =>
          simp only [List.get?_cons_succ] at hi
          obtain ⟨r, hr, h1, h2, h3⟩ := hchar i' o hi
          exact ⟨r, hr, h1, h2, h3⟩
    · -- tensor leaf
      cases hd : dictLookup m out with
      | some orig =>
        obtain ⟨res', s', hrun, hlenr, hnext, hheap, hstack, hchar⟩ := ih s
        refine ⟨orig :: res', s', ?_, by simp [hlenr], hnext, hheap, hstack, ?_⟩
        · simp only [listMapM, bind_run]
          rw [wrap_step_hit m level out orig s hts hd]
          dsimp only
          rw [hrun]
          rfl
        · intro i o hi
          cases i with
          | zero =>
            simp only [List.get?_cons_zero, Option.some.injEq] at hi
            subst hi
            refine ⟨orig, rfl, ?_, ?_, ?_⟩
            · intro hc; rw [hc] at hts; cases hts
            · intro _ orig' hd'
              rw [hd] at hd'
              injection hd'
            · intro _ hnone
              rw [hd] at hnone
              cases hnone
          | succ i' =>
            simp only [List.get?_cons_succ] at hi
            obtain ⟨r, hr, h1, h2, h3⟩ := hchar i' o hi
            exact ⟨r, hr, h1, h2, h3⟩
      | none =>
        obtain ⟨oid, rfl⟩ : ∃ oid, out = Value.tensor oid := by
          cases out with
          | tensor oid => exact ⟨oid, rfl⟩
          | obj oid => cases hts
        set s₁ : S :=
          { s with heap := (s.nextId, TObj.gradW level oid) :: s.heap,
                   nextId := s.nextId + 1,
                   trace := s.trace ++ [Event.wrapGrad level] } with hs₁
        obtain ⟨res', s', hrun, hlenr, hnext, hheap, hstack, hchar⟩ := ih s₁
        have hents : heapGet s₁.heap s.nextId = some (TObj.gradW level oid) := by
          simp [hs₁, heapGet]
        refine ⟨Value.tensor s.nextId :: res', s', ?_, by simp [hlenr], ?_, ?_, ?_, ?_⟩
        · simp only [listMapM, bind_run]
          rw [wrap_step_fresh m level oid s hd]
          dsimp only
          rw [← hs₁, hrun]
          rfl
        · have : s.nextId ≤ s₁.nextId := by simp [hs₁]
          omega
        · intro k hk
          have hk₁ : k < s₁.nextId := by simp [hs₁]; omega
          rw [hheap k hk₁]
          simp only [hs₁, heapGet]
          rw [if_neg (by omega)]
        · rw [hstack]
        · intro i o hi
          cases i with
          | zero =>
            simp only [List.get?_cons_zero, Option.some.injEq] at hi
            subst hi
            refine ⟨Value.tensor s.nextId, rfl, ?_, ?_, ?_⟩
            · intro hc; cases hc
            · intro _ orig' hd'
              rw [hd] at hd'
              cases hd'
            · intro _ _
              refine ⟨oid, s.nextId, rfl, rfl, le_refl _, ?_⟩
              rw [hheap s.nextId (by simp [hs₁])]
              exact hents
          | succ i' =>
            simp only [List.get?_cons_succ] at hi
            obtain ⟨r, hr, h1, h2, h3⟩ := hchar i' o hi
            refine ⟨r, hr, h1, h2, ?_⟩
            intro htn hdn
            obtain ⟨oid', n, ho', hrn, hle, hh⟩ := h3 htn hdn
            refine ⟨oid', n, ho', hrn, ?_, hh⟩
            have : s.nextId ≤ s₁.nextId := by simp [hs₁]
            omega

/-- C1: `wrap_outputs_maintaining_identity` succeeds, preserves the tree
shape of the outputs, and leafwise: a non-tensor leaf passes through
unchanged; a tensor leaf that is the same object as the unwrapped input at
position `j` comes back as the original (still-wrapped) input at position
`j`; any other tensor leaf comes back as a freshly allocated grad wrapper at
the current level around that exact tensor.  Matching is by object identity
(two distinct tensor objects are never conflated, as the fresh-wrap case
shows).  The no-duplicate hypothesis makes "the corresponding original
input" well defined (see C10 for the duplicate case). -/
theorem C1_wrap_outputs_identity (outputs : PyTree Value) (uIns oIns : List Value)
    (level : Nat) (s : S) (hlen : uIns.length = oIns.length) (hnd : uIns.Nodup) :
    ∃ t s', wrap_outputs_maintaining_identity outputs uIns oIns level s = (Except.ok t, s') ∧
      t.shapeOf = outputs.shapeOf ∧
      ∀ i out r, outputs.flatten.get? i = some out → t.flatten.get? i = some r →
        (out.isTensor = false → r = out) ∧
        (out.isTensor = true → ∀ j, uIns.get? j = some out → oIns.get? j = some r) ∧
        (out.isTensor = true → out ∉ uIns →
          ∃ oid n, out = Value.tensor oid ∧ r = Value.tensor n ∧ s.nextId ≤ n ∧
            heapGet s'.heap n = some (TObj.gradW level oid)) := by
  obtain ⟨res, s', hrun, hlenr, _, _, _, hchar⟩ :=
    wrapLoop_spec (uIns.zip oIns) level outputs.flatten s
  have hres_len : res.length = outputs.shapeOf.numLeaves := by
    rw [hlenr, length_flatten, numLeaves_shapeOf]
  obtain ⟨t, htu, hts, htf⟩ := tree_unflatten_spec outputs.shapeOf res hres_len
  refine ⟨t, s', ?_, hts, ?_⟩
  · simp only [wrap_outputs_maintaining_identity, tree_flatten, bind_run]
    rw [hrun]
    dsimp only
    rw [htu]
    rfl
  · intro i out r hi hr
    rw [htf] at hr
    obtain ⟨r', hr', h1, h2, h3⟩ := hchar i out hi
    have : r = r' := by
      rw [hr] at hr'
      exact (Option.some.injEq _ _ ▸ hr')
    subst this
    refine ⟨h1, ?_, fun htr hmem => h3 htr (dictLookup_eq_none uIns oIns out hmem)⟩
    intro htr j hj
    have hdict : dictLookup (uIns.zip oIns) out = oIns.get? j :=
      dictLookup_nodup uIns oIns out j hlen hnd hj
    have hb : j < oIns.length := by
      rw [← hlen]
      exact List.get?_eq_some.mp hj |>.1
    obtain ⟨o, ho⟩ : ∃ o, oIns.get? j = some o := ⟨oIns.get ⟨j, hb⟩, List.get?_eq_get hb⟩
    rw [ho]
    rw [ho] at hdict
    rw [h2 htr o hdict]

/-- Witness for C1: a pair tree with a non-tensor leaf, an aliasing tensor
leaf and a fresh tensor leaf. -/
theorem C1_wrap_outputs_identity_witness :
    ∃ t s', wrap_outputs_maintaining_identity
        (PyTree.pair (PyTree.leaf (Value.tensor 1)) (PyTree.pair (PyTree.leaf (Value.obj 6)) (PyTree.leaf (Value.tensor 0))))
        [Value.tensor 1, Value.obj 6] [Value.tensor 2, Value.obj 6] 7 sEmpty
        = (Except.ok t, s') ∧
      t.shapeOf = (PyTree.pair (PyTree.leaf (Value.tensor 1)) (PyTree.pair (PyTree.leaf (Value.obj 6)) (PyTree.leaf (Value.tensor 0)))).shapeOf ∧
      ∀ i out r,
        (PyTree.pair (PyTree.leaf (Value.tensor 1)) (PyTree.pair (PyTree.leaf (Value.obj 6)) (PyTree.leaf (Value.tensor 0)))).flatten.get? i = some out →
        t.flatten.get? i = some r →
        (out.isTensor = false → r = out) ∧
        (out.isTensor = true → ∀ j, [Value.tensor 1, Value.obj 6].get? j = some out →
          [Value.tensor 2, Value.obj 6].get? j = some r) ∧
        (out.isTensor = true → out ∉ [Value.tensor 1, Value.obj 6] →
          ∃ oid n, out = Value.tensor oid ∧ r = Value.tensor n ∧ sEmpty.nextId ≤ n ∧
            heapGet s'.heap n = some (TObj.gradW 7 oid)) :=
  C1_wrap_outputs_identity
    (PyTree.pair (PyTree.leaf (Value.tensor 1)) (PyTree.pair (PyTree.leaf (Value.obj 6)) (PyTree.leaf (Value.tensor 0))))
    [Value.tensor 1, Value.obj 6] [Value.tensor 2, Value.obj 6] 7 sEmpty rfl (by decide)

/-! ### C5: identity comparison in the Vmap general path -/

/-- Position-wise lookup in a zipped list. -/
theorem zip_get? {α β : Type} :
    ∀ (as : List α) (bs : List β) (i : Nat) (a : α) (b : β),
      as.get? i = some a → bs.get? i = some b → (as.zip bs).get? i = some (a, b) := by
  intro as
  induction as with
  | nil => intro bs i a b ha; simp at ha
  | cons x xs ih =>
    intro bs i a b ha hb
    cases bs with
    | nil => simp at hb
    | cons y ys =>
      cases i with
      | zero =>
        simp only [List.get?_cons_zero, Option.some.injEq] at ha hb
        subst ha; subst hb
        rfl
      | succ i' =>
        simp only [List.get?_cons_succ] at ha hb ⊢
        rw [List.zip_cons_cons, List.get?_cons_succ]
        exact ih ys i' a b ha hb

/-- Counterexample to C5 as stated: with one batched operand (the wrapped
input `tensor 1` whose unwrapped payload is `tensor 0`) and a user `vmap`
that returns its unwrapped input unchanged, the source rule matches on the
UNWRAPPED values and returns the exact original wrapped input `tensor 1`,
whereas the rule as the claim words it (comparing wrapped outputs against
wrapped inputs) would miss — the rewrapped output is the freshly allocated
`tensor 10` — and return that fresh wrapper instead.  The two disagree at
this input, so the identity step does NOT compare wrapped outputs against
wrapped inputs. -/
theorem C5_counterexample :
    (custom_function_call_vmap (custom_function_call 0) ⟨TransformType.Vmap, 3, 5⟩
        sampleFAliasVmap [Value.tensor 1] sVmap).1
      = Except.ok (PyTree.leaf (Value.tensor 1))
    ∧ (custom_function_call_vmap_wrappedCompare (custom_function_call 0)
          ⟨TransformType.Vmap, 3, 5⟩ sampleFAliasVmap [Value.tensor 1] sVmap).1
      = Except.ok (PyTree.leaf (Value.tensor 10))
    ∧ (custom_function_call_vmap (custom_function_call 0) ⟨TransformType.Vmap, 3, 5⟩
          sampleFAliasVmap [Value.tensor 1] sVmap).1
      ≠ (custom_function_call_vmap_wrappedCompare (custom_function_call 0)
          ⟨TransformType.Vmap, 3, 5⟩ sampleFAliasVmap [Value.tensor 1] sVmap).1 := by
  refine ⟨rfl, rfl, ?_⟩
  decide

/-- C5 amended: in the Vmap general path the identity-preservation step
compares the UNWRAPPED output leaves against the UNWRAPPED inputs by object
identity, and a matching leaf is returned as the exact original WRAPPED input
object (so the aliasing visible on the unwrapped values at this level becomes
visible to the next outer layer on the wrapped values); non-tensor leaves and
non-aliasing leaves keep the rewrapped output.  The state is untouched. -/
theorem C5_amended_preserve_identity (wouts uouts : PyTree Value) (ins uins : List Value)
    (s : S) (hshape : wouts.shapeOf = uouts.shapeOf)
    (hlen : uins.length = ins.length) (hnd : uins.Nodup) :
    ∃ t, preserve_object_identity wouts ins uouts uins s = (Except.ok t, s) ∧
      t.shapeOf = uouts.shapeOf ∧
      ∀ i wout uout r, wouts.flatten.get? i = some wout → uouts.flatten.get? i = some uout →
        t.flatten.get? i = some r →
        (wout.isTensor = false → r = wout) ∧
        (wout.isTensor = true → ∀ j, uins.get? j = some uout → ins.get? j = some r) ∧
        (wout.isTensor = true → uout ∉ uins → r = wout) := by
  have hflen : wouts.flatten.length = uouts.flatten.length := by
    have hw := numLeaves_shapeOf wouts
    have hu := numLeaves_shapeOf uouts
    rw [length_flatten, length_flatten, ← hw, ← hu, hshape]
  set step : Value × Value → Value := fun p =>
    if !p.1.isTensor then p.1
    else
      match dictLookup (uins.zip ins) p.2 with
      | some inp => inp
      | none => p.1
    with hstep
  set res : List Value := (wouts.flatten.zip uouts.flatten).map step with hres
  have hreslen : res.length = uouts.shapeOf.numLeaves := by
    have h2 : uouts.shapeOf.numLeaves = uouts.flatten.length := by
      rw [numLeaves_shapeOf, length_flatten]
    rw [h2, hres, List.length_map, List.length_zip, hflen, Nat.min_self]
  obtain ⟨t, htu, hts, htf⟩ := tree_unflatten_spec uouts.shapeOf res hreslen
  refine ⟨t, ?_, hts, ?_⟩
  · simp only [preserve_object_identity, tree_flatten]
    rw [← hstep, ← hres, htu]
    rfl
  · intro i wout uout r hw hu hr
    rw [htf, hres] at hr
    rw [List.get?_map, zip_get? wouts.flatten uouts.flatten i wout uout hw hu] at hr
    simp only [Option.map_some', Option.some.injEq] at hr
    subst hr
    refine ⟨?_, ?_, ?_⟩
    · intro htn
      simp [hstep, htn]
    · intro htr j hj
      have hdict : dictLookup (uins.zip ins) uout = ins.get? j :=
        dictLookup_nodup uins ins uout j hlen hnd hj
      have hb : j < ins.length := by
        rw [← hlen]
        exact List.get?_eq_some.mp hj |>.1
      obtain ⟨o, ho⟩ : ∃ o, ins.get? j = some o := ⟨ins.get ⟨j, hb⟩, List.get?_eq_get hb⟩
      rw [ho] at hdict
      rw [ho]
      simp [hstep, htr, hdict]
    · intro htr hmem
      have hdict := dictLookup_eq_none uins ins uout hmem
      simp [hstep, htr, hdict]

/-- Witness for the amended C5 at concrete trees: the wrapped output
`tensor 10` whose unwrapped output `tensor 0` aliases the unwrapped input
`tensor 0` comes back as the original wrapped input `tensor 1`. -/
theorem C5_amended_preserve_identity_witness :
    ∃ t, preserve_object_identity (PyTree.leaf (Value.tensor 10)) [Value.tensor 1]
        (PyTree.leaf (Value.tensor 0)) [Value.tensor 0] sVmap = (Except.ok t, sVmap) ∧
      t.shapeOf = (PyTree.leaf (Value.tensor 0)).shapeOf ∧
      ∀ i wout uout r,
        (PyTree.leaf (Value.tensor 10)).flatten.get? i = some wout →
        (PyTree.leaf (Value.tensor 0)).flatten.get? i = some uout →
        t.flatten.get? i = some r →
        (wout.isTensor = false → r = wout) ∧
        (wout.isTensor = true → ∀ j, [Value.tensor 0].get? j = some uout →
          [Value.tensor 1].get? j = some r) ∧
        (wout.isTensor = true → uout ∉ [Value.tensor 0] → r = wout) :=
  C5_amended_preserve_identity (PyTree.leaf (Value.tensor 10)) (PyTree.leaf (Value.tensor 0))
    [Value.tensor 1] [Value.tensor 0] sVmap rfl rfl (by decide)

/-! ### C4: Grad/Jvp rule structure -/

/-- The unwrap loop of the generated forward equals the specification-worded
unwrap-at-level pipeline. -/
theorem listMapM_unwrap_eq (level : Nat) (ops : List Value) :
    listMapM (fun x => if x.isTensor then unwrap_for_grad x level else pure x) ops
      = unwrapAtLevel level ops := by
  induction ops with
  | nil => rfl
  | cons v vs ih =>
    simp only [listMapM, unwrapAtLevel, ih]
    by_cases h : v.isTensor <;> simp [h]

/-- C4: dispatching a Grad or Jvp interpreter builds the single-level node
and invokes its apply entry on the original operands under the
node-construction flag; the node's forward is exactly the unwrap / enable
both gradient modes / evaluate under the next-outer interpreter / redispatch
/ rewrap-with-identity-preservation pipeline at the interpreter's level; its
setup_context, backward and jvp delegate verbatim to the descriptor with
unchanged arguments and results; and the redispatch really runs with both
gradient modes on and the interpreter stack lowered by exactly the current
interpreter (observed by a probe redispatch target). -/
theorem C4_grad_rule_structure (fuel : Nat) (i : Interp) (rest rest₂ : List Interp)
    (f : AFunction) (ops opnds : List Value) (s s₂ : S)
    (recur : AFunction → List Value → M (PyTree Value))
    (c : Nat) (outs : PyTree Value) (grads tangents : List Value)
    (hs : s.stack = i :: rest)
    (hk : i.kind = TransformType.Grad ∨ i.kind = TransformType.Jvp)
    (hs₂ : s₂.stack = i :: rest₂) :
    custom_function_call (fuel + 1) f ops s
        = withEnableAutogradFunction (Generated_apply (custom_function_call fuel) i f ops) s
    ∧ Generated_forward recur i f opnds = gradForwardSpec recur i.level f opnds
    ∧ Generated_setup_context f c outs opnds = f.setup_context c outs opnds
    ∧ Generated_backward f c grads = f.backward c grads
    ∧ Generated_jvp f c tangents = f.jvp c tangents
    ∧ (Generated_forward probeRecur i f [] s₂).2.trace
        = s₂.trace ++ [Event.userApply true true rest₂.length] := by
  refine ⟨?_, ?_, rfl, rfl, rfl, ?_⟩
  · rcases i with ⟨k, lv, bs⟩
    rcases hk with hk | hk <;> simp only at hk <;> subst hk <;>
      rw [custom_function_call, hs] <;> rfl
  · simp only [Generated_forward, gradForwardSpec, listMapM_unwrap_eq]
  · simp [Generated_forward, listMapM, bind_run, pure_run, withGradEnabled,
      withFwdGradEnabled, withLower, probeRecur, hs₂, wrap_outputs_maintaining_identity,
      tree_flatten, PyTree.flatten, PyTree.shapeOf, tree_unflatten, unflattenAux, ofOption]

/-- Witness for C4 at a concrete Grad interpreter, descriptor and state. -/
theorem C4_grad_rule_structure_witness :
    custom_function_call 1 sampleF [Value.tensor 2] sGrad
        = withEnableAutogradFunction
            (Generated_apply (custom_function_call 0) ⟨TransformType.Grad, 7, 0⟩ sampleF
              [Value.tensor 2]) sGrad
    ∧ Generated_forward (custom_function_call 0) ⟨TransformType.Grad, 7, 0⟩ sampleF
          [Value.tensor 2]
        = gradForwardSpec (custom_function_call 0) 7 sampleF [Value.tensor 2]
    ∧ Generated_setup_context sampleF 0 PyTree.nil [Value.tensor 2]
        = sampleF.setup_context 0 PyTree.nil [Value.tensor 2]
    ∧ Generated_backward sampleF 0 [Value.tensor 0] = sampleF.backward 0 [Value.tensor 0]
    ∧ Generated_jvp sampleF 0 [Value.tensor 0] = sampleF.jvp 0 [Value.tensor 0]
    ∧ (Generated_forward probeRecur ⟨TransformType.Grad, 7, 0⟩ sampleF [] sGrad).2.trace
        = sGrad.trace ++ [Event.userApply true true 0] :=
  C4_grad_rule_structure 0 ⟨TransformType.Grad, 7, 0⟩ [] [] sampleF [Value.tensor 2]
    [Value.tensor 2] sGrad sGrad (custom_function_call 0) 0 PyTree.nil
    [Value.tensor 0] [Value.tensor 0] rfl (Or.inl rfl) rfl

/-! ### C7: nested transform ordering -/

/-- C7: with two interpreters active — outer Grad at level `L2` on top of
inner Vmap at level `L1` — a single entry-point call on a doubly wrapped
operand produces the observable interaction sequence: unwrap at `L2` first,
then (inside the redispatch) unwrap at `L1`, then the user vmap runs, then
rewrap at `L1`, and only then rewrap at `L2`.  Rules fire strictly
outer-to-inner, rewrapping happens inner-to-outer, the call succeeds, and the
interpreter stack is restored. -/
theorem C7_nested_ordering (L1 L2 B d0 : Nat) :
    (custom_function_call 2 sampleF [Value.tensor 2] (sNested L1 L2 B d0)).2.trace
        = [Event.unwrapGrad L2, Event.unwrapBatched L1, Event.userVmap,
           Event.wrapBatched L1, Event.wrapGrad L2]
    ∧ (custom_function_call 2 sampleF [Value.tensor 2] (sNested L1 L2 B d0)).2.stack
        = (sNested L1 L2 B d0).stack
    ∧ (custom_function_call 2 sampleF [Value.tensor 2] (sNested L1 L2 B d0)).1
        = Except.ok (PyTree.leaf (Value.tensor 5)) := by
  refine ⟨?_, ?_, ?_⟩ <;>
    simp [custom_function_call, custom_function_call_grad, custom_function_call_vmap,
      withEnableAutogradFunction, Generated_apply, withModesOff, Generated_forward,
      Generated_setup_context, listMapM, unwrap_for_grad, heapGet, withGradEnabled,
      withFwdGradEnabled, withLower, unwrap_batched, unwrap_batched_single, sampleVmap,
      sampleF, sampleApply, wrap_batched, tree_flatten, PyTree.flatten, PyTree.shapeOf,
      PyTree.numLeaves, broadcast_to_and_flatten, List.replicate, create_batched_inputs,
      add_batch_dim, tree_unflatten, unflattenAux, preserve_object_identity, dictLookup,
      wrap_outputs_maintaining_identity, wrap_for_grad, freshCtx, ofOption, bind_run,
      pure_run, sNested, Value.isTensor]

/-! ### C8: stack and flag restoration -/

theorem stackNeutral_pure {α : Type} (a : α) : StackNeutral (pure a : M α) :=
  fun _ => rfl

theorem stackNeutral_raise {α : Type} (msg : String) : StackNeutral (raise msg : M α) :=
  fun _ => rfl

theorem stackNeutral_ofOption {α : Type} (o : Option α) (msg : String) :
    StackNeutral (ofOption o msg) := by
  intro s
  cases o <;> rfl

theorem stackNeutral_bind {α β : Type} (m : M α) (k : α → M β)
    (hm : StackNeutral m) (hk : ∀ a, StackNeutral (k a)) : StackNeutral (m >>= k) := by
  intro s
  have hms := hm s
  rw [bind_run]
  rcases hrun : m s with ⟨r, s₁⟩
  rw [hrun] at hms
  cases r with
  | ok a => exact (hk a s₁).trans hms
  | error e => exact hms

theorem stackNeutral_withLower {α : Type} (body : M α) (hb : StackNeutral body) :
    StackNeutral (withLower body) := by
  intro s
  simp only [withLower]
  rcases hstk : s.stack with _ | ⟨top, rest⟩
  · exact (hb s).trans hstk
  · show top :: (body { s with stack := rest }).2.stack = top :: rest
    rw [hb { s with stack := rest }]

theorem stackNeutral_withGradEnabled {α : Type} (body : M α) (hb : StackNeutral body) :
    StackNeutral (withGradEnabled body) := by
  intro s
  simp only [withGradEnabled]
  exact hb { s with gradMode := true }

theorem stackNeutral_withFwdGradEnabled {α : Type} (body : M α) (hb : StackNeutral body) :
    StackNeutral (withFwdGradEnabled body) := by
  intro s
  simp only [withFwdGradEnabled]
  exact hb { s with fwdGradMode := true }

theorem stackNeutral_withModesOff {α : Type} (body : M α) (hb : StackNeutral body) :
    StackNeutral (withModesOff body) := by
  intro s
  simp only [withModesOff]
  exact hb { s with gradMode := false, fwdGradMode := false }

theorem stackNeutral_withEnableAutogradFunction {α : Type} (body : M α)
    (hb : StackNeutral body) : StackNeutral (withEnableAutogradFunction body) := by
  intro s
  simp only [withEnableAutogradFunction]
  exact hb { s with anfFlag := true }

theorem stackNeutral_unwrap_for_grad (v : Value) (level : Nat) :
    StackNeutral (unwrap_for_grad v level) := by
  intro s
  cases v with
  | tensor o =>
    simp only [unwrap_for_grad]
    cases heapGet s.heap o with
    | none => rfl
    | some obj =>
      cases obj with
      | base => rfl
      | gradW l inner => by_cases h : l = level <;> simp [h]
      | batchedW l d inner => rfl
  | obj o => rfl

theorem stackNeutral_wrap_for_grad (v : Value) (level : Nat) :
    StackNeutral (wrap_for_grad v level) := by
  intro s
  cases v <;> rfl

theorem stackNeutral_unwrap_batched_single (v : Value) (level : Nat) :
    StackNeutral (unwrap_batched_single v level) := by
  intro s
  cases v with
  | tensor o =>
    simp only [unwrap_batched_single]
    cases heapGet s.heap o with
    | none => rfl
    | some obj =>
      cases obj with
      | base => rfl
      | gradW l inner => rfl
      | batchedW l d inner => by_cases h : l = level <;> simp [h]
  | obj o => rfl

theorem stackNeutral_add_batch_dim (v : Value) (bdim level : Nat) :
    StackNeutral (add_batch_dim v bdim level) := by
  intro s
  cases v <;> rfl

theorem stackNeutral_freshCtx : StackNeutral freshCtx :=
  fun _ => rfl

theorem stackNeutral_listMapM {α β : Type} (g : α → M β) (hg : ∀ a, StackNeutral (g a)) :
    ∀ l : List α, StackNeutral (listMapM g l) := by
  intro l
  induction l with
  | nil => exact stackNeutral_pure []
  | cons a as ih =>
    exact stackNeutral_bind _ _ (hg a)
      (fun b => stackNeutral_bind _ _ ih (fun bs => stackNeutral_pure _))

theorem stackNeutral_wrap_outputs (outputs : PyTree Value) (uIns oIns : List Value)
    (level : Nat) : StackNeutral (wrap_outputs_maintaining_identity outputs uIns oIns level) := by
  refine stackNeutral_bind _ _ ?_ ?_
  · refine stackNeutral_listMapM _ ?_ _
    intro out
    by_cases ht : !out.isTensor
    · intro s; rw [if_pos ht]; rfl
    · intro s
      rw [if_neg ht]
      cases dictLookup (uIns.zip oIns) out with
      | some orig => rfl
      | none => exact stackNeutral_wrap_for_grad out level s
  · intro res
    exact stackNeutral_ofOption _ _

theorem stackNeutral_preserve_object_identity (outputs : PyTree Value) (inputs : List Value)
    (uouts : PyTree Value) (uins : List Value) :
    StackNeutral (preserve_object_identity outputs inputs uouts uins) :=
  stackNeutral_ofOption _ _

theorem stackNeutral_unwrap_batched (args : List Value) (level : Nat) :
    StackNeutral (unwrap_batched args level) := by
  cases args with
  | nil => exact stackNeutral_pure _
  | cons a as =>
    refine stackNeutral_bind _ _ ?_ ?_
    · refine stackNeutral_listMapM _ ?_ _
      intro v
      by_cases ht : v.isTensor
      · intro s; rw [if_pos ht]; exact stackNeutral_unwrap_batched_single v level s
      · intro s; rw [if_neg ht]; rfl
    · intro res
      exact stackNeutral_pure _

theorem stackNeutral_create_batched_inputs (flat_bdims : List (Option Nat))
    (flat_args : List Value) (level : Nat) (spec : PyTree Unit) :
    StackNeutral (create_batched_inputs flat_bdims flat_args level spec) := by
  refine stackNeutral_bind _ _ ?_ ?_
  · refine stackNeutral_listMapM _ ?_ _
    intro p
    rcases p with ⟨d, a⟩
    cases d with
    | none => exact stackNeutral_pure _
    | some dd => exact stackNeutral_add_batch_dim a dd level
  · intro res
    exact stackNeutral_ofOption _ _

theorem stackNeutral_wrap_batched (args : PyTree Value) (bdims : BDims) (level : Nat) :
    StackNeutral (wrap_batched args bdims level) := by
  simp only [wrap_batched, tree_flatten]
  cases broadcast_to_and_flatten bdims args.shapeOf with
  | none => exact stackNeutral_raise _
  | some flat_bdims => exact stackNeutral_create_batched_inputs _ _ _ _

theorem stackNeutral_Generated_forward (recur : AFunction → List Value → M (PyTree Value))
    (i : Interp) (f : AFunction) (ops : List Value)
    (hrecur : ∀ ops', StackNeutral (recur f ops')) :
    StackNeutral (Generated_forward recur i f ops) := by
  refine stackNeutral_bind _ _ ?_ ?_
  · refine stackNeutral_listMapM _ ?_ _
    intro v
    by_cases ht : v.isTensor
    · intro s; rw [if_pos ht]; exact stackNeutral_unwrap_for_grad v i.level s
    · intro s; rw [if_neg ht]; rfl
  · intro unwrapped
    refine stackNeutral_bind _ _ ?_ ?_
    · exact stackNeutral_withGradEnabled _
        (stackNeutral_withFwdGradEnabled _
          (stackNeutral_withLower _ (hrecur unwrapped)))
    · intro output
      exact stackNeutral_wrap_outputs _ _ _ _

theorem stackNeutral_custom_function_call_grad
    (recur : AFunction → List Value → M (PyTree Value)) (i : Interp) (f : AFunction)
    (ops : List Value) (hrecur : ∀ ops', StackNeutral (recur f ops'))
    (hsetup : ∀ c outs ops', StackNeutral (f.setup_context c outs ops')) :
    StackNeutral (custom_function_call_grad recur i f ops) := by
  refine stackNeutral_withEnableAutogradFunction _ ?_
  refine stackNeutral_bind _ _ ?_ ?_
  · exact stackNeutral_withModesOff _ (stackNeutral_Generated_forward recur i f ops hrecur)
  · intro outputs
    refine stackNeutral_bind _ _ stackNeutral_freshCtx ?_
    intro c
    refine stackNeutral_bind _ _ (hsetup c outputs ops) ?_
    intro u
    exact stackNeutral_pure _

theorem stackNeutral_custom_function_call_vmap
    (recur : AFunction → List Value → M (PyTree Value)) (i : Interp) (f : AFunction)
    (ops : List Value) (hrecur : ∀ ops', StackNeutral (recur f ops'))
    (hvmap : ∀ vf, f.vmap = some vf → ∀ info dims ops', StackNeutral (vf info dims ops')) :
    StackNeutral (custom_function_call_vmap recur i f ops) := by
  simp only [custom_function_call_vmap]
  cases hv : f.vmap with
  | none => exact stackNeutral_raise _
  | some vf =>
    refine stackNeutral_bind _ _ (stackNeutral_unwrap_batched _ _) ?_
    rintro ⟨unwrapped, dims⟩
    dsimp only
    split
    · exact stackNeutral_withLower _ (hrecur ops)
    · refine stackNeutral_bind _ _ (stackNeutral_withLower _ (hvmap vf hv _ _ _)) ?_
      rintro ⟨uout, odims⟩
      refine stackNeutral_bind _ _ (stackNeutral_wrap_batched _ _ _) ?_
      intro output
      exact stackNeutral_preserve_object_identity _ _ _ _

/-- The entry point leaves the interpreter stack as it found it, on every
exit path, whenever the descriptor's own capabilities do. -/
theorem stackNeutral_custom_function_call (f : AFunction) (hf : DescriptorStackNeutral f) :
    ∀ (fuel : Nat) (ops : List Value), StackNeutral (custom_function_call fuel f ops) := by
  intro fuel
  induction fuel with
  | zero =>
    intro ops s
    rw [custom_function_call]
    rcases hstk : s.stack with _ | ⟨i, rest⟩
    · exact (hf.applyN ops s).trans hstk
    · exact hstk
  | succ fl ih =>
    intro ops s
    rw [custom_function_call]
    rcases hstk : s.stack with _ | ⟨i, rest⟩
    · exact (hf.applyN ops s).trans hstk
    · rcases i with ⟨k, lv, bs⟩
      cases k with
      | Grad =>
        exact (stackNeutral_custom_function_call_grad _ _ f ops
          (fun ops' => ih ops') hf.setupN s).trans hstk
      | Jvp =>
        exact (stackNeutral_custom_function_call_grad _ _ f ops
          (fun ops' => ih ops') hf.setupN s).trans hstk
      | Vmap =>
        exact (stackNeutral_custom_function_call_vmap _ _ f ops
          (fun ops' => ih ops') hf.vmapN s).trans hstk
      | Functionalize => exact hstk

/-- C8: for every Grad or Jvp dispatch, the single-level-node construction
flag is restored to its prior value on every exit path (unconditionally: the
scoped guard rewrites it back whatever the body did), and the interpreter
stack — including its temporarily lowered state — is back to its pre-call
value on every exit path, provided the descriptor's own capabilities do not
tamper with the stack.  This covers the error exits: the conclusion holds
whether the call returned `ok` or propagated an exception from the user
forward (the backward capability runs outside this call and is not part of
it). -/
theorem C8_grad_restores_flag_and_stack (fuel : Nat) (i : Interp) (rest : List Interp)
    (f : AFunction) (ops : List Value) (s : S)
    (hs : s.stack = i :: rest)
    (hk : i.kind = TransformType.Grad ∨ i.kind = TransformType.Jvp)
    (hf : DescriptorStackNeutral f) :
    (custom_function_call (fuel + 1) f ops s).2.stack = s.stack
    ∧ (custom_function_call (fuel + 1) f ops s).2.anfFlag = s.anfFlag := by
  constructor
  · exact stackNeutral_custom_function_call f hf (fuel + 1) ops s
  · rcases i with ⟨k, lv, bs⟩
    rcases hk with hk | hk <;> simp only at hk <;> subst hk <;>
      rw [custom_function_call, hs] <;> rfl

/-- The raising descriptor's capabilities are stack-neutral. -/
theorem raisingF_stackNeutral : DescriptorStackNeutral raisingF := by
  refine ⟨fun ops s => rfl, fun c outs ops s => rfl, ?_⟩
  intro vf hvf info dims ops s
  simp only [raisingF, sampleF, Option.some.injEq] at hvf
  subst hvf
  rfl

/-- Witness for C8: a user forward that raises still leaves the stack and
the flag restored, and the error is propagated. -/
theorem C8_grad_restores_flag_and_stack_witness :
    ((custom_function_call 1 raisingF [Value.tensor 2] sGrad).2.stack = sGrad.stack
      ∧ (custom_function_call 1 raisingF [Value.tensor 2] sGrad).2.anfFlag = sGrad.anfFlag)
    ∧ (custom_function_call 1 raisingF [Value.tensor 2] sGrad).1
        = Except.error "user forward failure" :=
  ⟨C8_grad_restores_flag_and_stack 0 ⟨TransformType.Grad, 7, 0⟩ [] raisingF [Value.tensor 2]
      sGrad rfl (Or.inl rfl) raisingF_stackNeutral,
   by decide⟩

end FunctorchCFC
